import Mathlib

/- Shallow embedding of `src/c++/ctqmc.cpp` (cthyb solver orchestration on top of
TRIQS). The external TRIQS collaborators — Green-function algebra (pointwise
matrix inversion, high-frequency tail extraction, Fourier transforms, mesh point
values), the fermionic operator algebra, and the generic Monte Carlo driver —
are modelled as abstract inputs, mirroring the spec's "out of scope" boundary.
Solver-side data flow is translated line by line from the source. -/

namespace cthyb

/-- A matrix entry table: entry at row `i`, column `j`. -/
abbrev Mat : Type := ℕ → ℕ → ℂ

/-- Matrix-valued data on the Matsubara-frequency mesh (index `n` ↦ matrix). -/
abbrev GfFreqData : Type := ℤ → Mat

/-- Matrix-valued data on the imaginary-time mesh (bin index ↦ matrix). -/
abbrev GfTimeData : Type := ℕ → Mat

/-- Statistic of a Green-function mesh. -/
inductive Statistic where
  | Fermion
  | Boson
deriving DecidableEq, Repr

/-- Imaginary-time mesh kind (the source uses `half_bins`). -/
inductive ImtimeKind where
  | full_bins
  | half_bins
  | without_last
deriving DecidableEq, Repr

/-- Matsubara-frequency mesh: `{beta, Fermion, n_iw}`. -/
structure MeshImfreq where
  beta : ℝ
  statistic : Statistic
  n_points : ℕ

/-- Imaginary-time mesh: `{beta, Fermion, n_tau, half_bins}`. -/
structure MeshImtime where
  beta : ℝ
  statistic : Statistic
  n_points : ℕ
  kind : ImtimeKind

/-- One block of a Matsubara Green function: mesh, matrix dimension, data. -/
structure GfImfreq where
  mesh : MeshImfreq
  dim : ℕ
  val : GfFreqData

/-- One block of an imaginary-time Green function: mesh, matrix dimension, data. -/
structure GfImtime where
  mesh : MeshImtime
  dim : ℕ
  val : GfTimeData

/-- A block Green function on Matsubara frequencies (`make_block_gf`). -/
structure BlockGfImfreq where
  names : List String
  blocks : List GfImfreq

/-- A block Green function on imaginary time (`make_block_gf`). -/
structure BlockGfImtime where
  names : List String
  blocks : List GfImtime

/-- One entry of `gf_struct`: block name and its inner orbital indices.
`gf_struct` is a `std::map`, so the list order is the map's iteration order. -/
structure Block where
  name : String
  orbitals : List ℕ

/-- The block structure `std::map<std::string, std::vector<int>>`, in iteration
order. -/
abbrev GfStruct := List Block

/-- The solver object: members of class `ctqmc`. -/
structure ctqmc where
  beta : ℝ
  gf_struct : GfStruct
  G0_iw : BlockGfImfreq
  G_tau : BlockGfImtime
  Delta_tau : BlockGfImtime

/-- The all-zero matrix (TRIQS zero-initializes Green-function data). -/
def zeroMat : Mat := fun _ _ => 0

/-- The constructor `ctqmc::ctqmc` (source lines 35-57): reject when
`n_tau <= 2*n_iw` (`TRIQS_RUNTIME_ERROR`), otherwise build one block per
`gf_struct` entry for `G0_iw`, `G_tau` and `Delta_tau`. -/
def ctqmc.construct (beta : ℝ) (gf_struct : GfStruct) (n_iw n_tau : ℕ) :
    Except String ctqmc :=
  if n_tau ≤ 2 * n_iw then
    .error ("Must use as least twice as many tau points as Matsubara frequencies: n_iw = "
      ++ toString n_iw ++ " but n_tau = " ++ toString n_tau ++ ".")
  else
    let block_names := gf_struct.map Block.name
    let g0_iw_blocks := gf_struct.map (fun bl =>
      GfImfreq.mk ⟨beta, .Fermion, n_iw⟩ bl.orbitals.length (fun _ => zeroMat))
    let g_tau_blocks := gf_struct.map (fun bl =>
      GfImtime.mk ⟨beta, .Fermion, n_tau, .half_bins⟩ bl.orbitals.length (fun _ => zeroMat))
    let delta_tau_blocks := gf_struct.map (fun bl =>
      GfImtime.mk ⟨beta, .Fermion, n_tau, .half_bins⟩ bl.orbitals.length (fun _ => zeroMat))
    .ok ⟨beta, gf_struct, ⟨block_names, g0_iw_blocks⟩, ⟨block_names, g_tau_blocks⟩,
      ⟨block_names, delta_tau_blocks⟩⟩

/-- Whether an `Except` result is a success. -/
def exceptOk {ε α : Type} : Except ε α → Bool
  | .ok _ => true
  | .error _ => false

/-- The external TRIQS Green-function algebra (out of scope per the spec):
pointwise matrix inversion of a Matsubara Green function
(`triqs::gfs::inverse`), extraction of the high-frequency tail coefficients
(`.singularity()(k)`), the inverse Fourier transform to imaginary time
(`inverse_fourier`), and the values `i·ω_n` of the Matsubara mesh points (the
clef placeholder `iw_`). -/
structure GfLib where
  inverse : GfFreqData → GfFreqData
  singularity : GfFreqData → ℤ → Mat
  inverse_fourier : GfFreqData → GfTimeData
  freq : ℤ → ℂ

/-- Formal many-body operator expressions (`real_operator_t`); the operator
algebra is an external collaborator, so expressions stay symbolic. -/
inductive OpExpr where
  | zero
  | cdag (block : String) (orb : ℕ)
  | c (block : String) (orb : ℕ)
  | smul (coef : ℝ) (x : OpExpr)
  | add (x y : OpExpr)
  | mul (x y : OpExpr)

/-- The fundamental operator set built in `solve` (source lines 77-88): one
`(block name, orbital)` pair per orbital, in `gf_struct` iteration order. -/
def build_fops (gf_struct : GfStruct) : List (String × ℕ) :=
  gf_struct.flatMap (fun b => b.orbitals.map (fun a => (b.name, a)))

/-- The linear-index map built in `solve` (source lines 77-88):
`(block_index, inner_index) ↦ position in the fundamental operator set`. -/
def build_linindex (gf_struct : GfStruct) : List ((ℕ × ℕ) × ℕ) :=
  ((gf_struct.enum.flatMap (fun bi =>
    bi.2.orbitals.enum.map (fun ai => (bi.1, ai.1)))).enum.map (fun q => (q.2, q.1)))

/-- The runtime parameter values `solve` reads from `params`. -/
structure parameters where
  measure_g_tau : Bool
  measure_pert_order : Bool
  max_time : ℤ

/-- One operator insertion of a Monte Carlo configuration
(block, imaginary time, inner orbital, creation flag). -/
structure OperatorInsertion where
  block : ℕ
  tau : ℝ
  inner : ℕ
  dagger : Bool

/-- A Monte Carlo configuration: the time-ordered operator insertions. -/
structure Config where
  insertions : List OperatorInsertion

/-- Modelled from the spec: the `qmc_data` constructor (its file is not under
`src/`) creates the sampling state with an empty operator configuration —
"Configuration starts empty (trivial diagram, weight = sign 1)". -/
def qmc_data_initial_config : Config := ⟨[]⟩

/-- The atomic-state space `sorted_spaces` (external), recorded by its
constructor arguments (source lines 143-147). -/
inductive Sosp where
  | with_qn (h_loc : OpExpr) (quantum_numbers : List OpExpr) (fops : List (String × ℕ))
  | without_qn (h_loc : OpExpr) (fops : List (String × ℕ))

/-- Kind of a registered Monte Carlo move. -/
inductive MoveKind where
  | insert_c_cdag
  | remove_c_cdag
deriving DecidableEq, Repr

/-- A move registration handed to `mc_generic::add_move`. -/
structure MoveReg where
  kind : MoveKind
  block : ℕ
  block_size : ℕ
  name : String
deriving DecidableEq, Repr

/-- Kind of a registered measurement. -/
inductive MeasureKind where
  | g_tau
  | perturbation_hist
deriving DecidableEq, Repr

/-- A measurement registration handed to `mc_generic::add_measure`. -/
structure MeasureReg where
  kind : MeasureKind
  block : ℕ
  name : String
  file : String
deriving DecidableEq, Repr

/-- The two moves registered for one `Delta_tau` block (source lines 154-158):
`move_insert_c_cdag` and `move_remove_c_cdag`, with the block's matrix
dimension (`Delta_tau[block].data().shape()[1]`) as block size. -/
def move_regs_for_block (q : ℕ × (String × GfImtime)) : List MoveReg :=
  [⟨.insert_c_cdag, q.1, q.2.2.dim, "Insert Delta_" ++ q.2.1⟩,
   ⟨.remove_c_cdag, q.1, q.2.2.dim, "Remove Delta_" ++ q.2.1⟩]

/-- The `measure_g` registration for one block (source lines 163-165). -/
def g_measure_for_block (q : ℕ × String) : MeasureReg :=
  ⟨.g_tau, q.1, "G measure (" ++ q.2 ++ ")", ""⟩

/-- The `measure_perturbation_hist` registration for one block
(source lines 169-171). -/
def pert_measure_for_block (q : ℕ × String) : MeasureReg :=
  ⟨.perturbation_hist, q.1, "Perturbation order (" ++ q.2 ++ ")",
   "histo_pert_order_" ++ q.2 ++ ".dat"⟩

/-- Everything `ctqmc::solve` leaves behind: the mutated solver members, the
augmented local Hamiltonian, the operator basis, the atomic-state space, the
registrations handed to the Monte Carlo driver, and the start of the run. -/
structure SolveResult where
  G0_iw : BlockGfImfreq
  G_tau : BlockGfImtime
  Delta_tau : BlockGfImtime
  h_loc : OpExpr
  fops : List (String × ℕ)
  linindex : List ((ℕ × ℕ) × ℕ)
  sosp : Sosp
  moves : List MoveReg
  measures : List MeasureReg
  start_sign : ℝ
  initial_config : Config
  max_time : ℤ

/-- The body of the per-block hybridization loop (source lines 106-116):
from one `G0_iw` block and the matching `Delta_tau` block, compute the
tail-corrected `G0_iw` block and the new `Delta_tau` block. -/
def hyb_block (lib : GfLib) (q : GfImfreq × GfImtime) : GfImfreq × GfImtime :=
  let g0_inv := lib.inverse q.1.val
  let delta_iw : GfFreqData := fun n i j =>
    lib.singularity g0_inv (-1) i j * lib.freq n
      + lib.singularity g0_inv 0 i j - g0_inv n i j
  let g0_new : GfFreqData := lib.inverse (fun n i j =>
    (if i = j then lib.freq n else 0) + lib.singularity g0_inv 0 i j - delta_iw n i j)
  (GfImfreq.mk q.1.mesh q.1.dim g0_new,
   GfImtime.mk q.2.mesh q.2.dim (lib.inverse_fourier delta_iw))

/-- `ctqmc::solve` (source lines 73-177), with the external Green-function
algebra abstracted into `lib`. Mirrors the source order: operator basis,
quadratic correction of `h_loc`, hybridization from the inverse Weiss field and
tail correction of `G0_iw`, atomic-state space, move and measurement
registration, and the start of the run with sign 1. -/
def ctqmc.solve (lib : GfLib) (s : ctqmc) (h_loc : OpExpr) (params : parameters)
    (quantum_numbers : List OpExpr) (use_quantum_numbers : Bool) : SolveResult :=
  let fops := build_fops s.gf_struct
  let linindex := build_linindex s.gf_struct
  let h_loc := (s.gf_struct.zip s.G0_iw.blocks).foldl (fun h q =>
    q.1.orbitals.foldl (fun h1 a1 =>
      q.1.orbitals.foldl (fun h2 a2 =>
        OpExpr.add h2 (OpExpr.smul (lib.singularity q.2.val 2 a1 a2).re
          (OpExpr.mul (OpExpr.cdag q.1.name a1) (OpExpr.c q.1.name a2)))) h1) h) h_loc
  let hyb := (s.G0_iw.blocks.zip s.Delta_tau.blocks).map (hyb_block lib)
  let G0_iw : BlockGfImfreq := ⟨s.G0_iw.names, hyb.map Prod.fst⟩
  let Delta_tau : BlockGfImtime := ⟨s.Delta_tau.names, hyb.map Prod.snd⟩
  let sosp := if use_quantum_numbers then Sosp.with_qn h_loc quantum_numbers fops
              else Sosp.without_qn h_loc fops
  let moves := (Delta_tau.names.zip Delta_tau.blocks).enum.flatMap move_regs_for_block
  let measures :=
    (if params.measure_g_tau then s.G_tau.names.enum.map g_measure_for_block else []) ++
    (if params.measure_pert_order then s.G_tau.names.enum.map pert_measure_for_block else [])
  ⟨G0_iw, s.G_tau, Delta_tau, h_loc, fops, linindex, sosp, moves, measures,
   1, qmc_data_initial_config, params.max_time⟩

/-- A default value registered with `add_field` (`no_default<int>()` has no
default). -/
inductive DefaultVal where
  | no_default_int
  | int_val (z : ℤ)
  | string_val (s : String)
  | bool_val (b : Bool)
deriving DecidableEq, Repr

/-- One field of the parameter set: name, default, documentation string. -/
structure ParamField where
  name : String
  dflt : DefaultVal
  doc : String
deriving DecidableEq, Repr

/-- The parameter set `parameters_t`, as an ordered field table. -/
structure parameters_t where
  fields : List ParamField
deriving DecidableEq, Repr

/-- `parameters_t::add_field`: append one field descriptor. -/
def parameters_t.add_field (p : parameters_t) (nm : String) (d : DefaultVal)
    (doc : String) : parameters_t :=
  ⟨p.fields ++ [⟨nm, d, doc⟩]⟩

/-- The default of the field with the given name, if recognized. -/
def parameters_t.default_of (p : parameters_t) (nm : String) : Option DefaultVal :=
  (p.fields.find? (fun f => f.name == nm)).map ParamField.dflt

/-- Two's-complement wraparound of 32-bit `int` arithmetic. -/
def wrap32 (z : ℤ) : ℤ := (z + 2 ^ 31) % 2 ^ 32 - 2 ^ 31

/-- The default random seed `int(34788 + 928374 * world.rank())`
(source line 189), with `int` wraparound made explicit. -/
def default_random_seed (rank : ℕ) : ℤ := wrap32 (34788 + 928374 * rank)

/-- `ctqmc::solve_parameters` (source lines 181-199): the recognized runtime
options with their defaults, for a worker of the given communicator rank. -/
def ctqmc.solve_parameters (rank : ℕ) : parameters_t :=
  (((((((((((parameters_t.mk []).add_field
    "n_cycles" .no_default_int "Number of QMC cycles").add_field
    "length_cycle" (.int_val 50) "Length of a single QMC cycle").add_field
    "n_warmup_cycles" (.int_val 5000) "Number of cycles for thermalization").add_field
    "random_seed" (.int_val (default_random_seed rank)) "Seed for random number generator").add_field
    "random_name" (.string_val "") "Name of random number generator").add_field
    "max_time" (.int_val (-1)) "Maximum runtime in seconds, use -1 to set infinite").add_field
    "verbosity" (.int_val (if rank = 0 then 3 else 0)) "Verbosity level").add_field
    "use_trace_estimator" (.bool_val false) "Calculate the full trace or use an estimate?").add_field
    "measure_g_tau" (.bool_val true) "Whether to measure G(tau)").add_field
    "measure_pert_order" (.bool_val false) "Whether to measure perturbation order").add_field
    "make_histograms" (.bool_val false) "Make the analysis histograms of the trace computation"

/-- The runtime options the spec documents (section 6, "Runtime
configuration"), by their field names. -/
def documented_runtime_options : List String :=
  ["n_cycles", "length_cycle", "n_warmup_cycles", "random_seed", "max_time",
   "measure_g_tau", "measure_pert_order", "use_trace_estimator"]

/-- The claim's formula for the Matsubara hybridization function of one block:
`Δ(iω_n) = tail(-1)·iω_n + tail(0) − (G₀)⁻¹(iω_n)`, where `tail(-1)` and
`tail(0)` are the leading and subleading high-frequency tail coefficients of
the inverse Weiss field. -/
def delta_iw_of_weiss (lib : GfLib) (g0 : GfFreqData) : GfFreqData :=
  fun n i j =>
    lib.singularity (lib.inverse g0) (-1) i j * lib.freq n
      + lib.singularity (lib.inverse g0) 0 i j
      - (lib.inverse g0) n i j

/-- The claim's formula for the tail-corrected propagator written back into
`G0_iw`: `(iω_n·1 + tail(0) of (G₀)⁻¹ − Δ(iω_n))⁻¹`. -/
def g0_corrected_of_weiss (lib : GfLib) (g0 : GfFreqData) : GfFreqData :=
  lib.inverse (fun n i j =>
    (if i = j then lib.freq n else 0)
      + lib.singularity (lib.inverse g0) 0 i j
      - delta_iw_of_weiss lib g0 n i j)

/-- One quadratic correction term `coef · c_dag(bl, a1) · c(bl, a2)`. -/
def quad_term (bl : String) (a1 a2 : ℕ) (coef : ℝ) : OpExpr :=
  .smul coef (.mul (.cdag bl a1) (.c bl a2))

/-- The claim's static quadratic part of the Weiss field's high-frequency
tail: for every block and every ordered orbital pair `(a1, a2)` of that block,
the term `Re(tail(2) of G0_iw at (a1, a2)) · c_dag·c`, in block order. -/
def weiss_quad_terms (lib : GfLib) (gf_struct : GfStruct)
    (g0_blocks : List GfImfreq) : List OpExpr :=
  (gf_struct.zip g0_blocks).flatMap (fun q =>
    q.1.orbitals.flatMap (fun a1 =>
      q.1.orbitals.map (fun a2 =>
        quad_term q.1.name a1 a2 (lib.singularity q.2.val 2 a1 a2).re)))

/-- Junk default for out-of-range `gf_struct` indexing. -/
def dummy_block : Block := ⟨"", []⟩

/-- Junk default for out-of-range Matsubara-block indexing. -/
def dummy_gf_imfreq : GfImfreq := ⟨⟨0, .Fermion, 0⟩, 0, fun _ => zeroMat⟩

/-- Junk default for out-of-range imaginary-time-block indexing. -/
def dummy_gf_imtime : GfImtime := ⟨⟨0, .Fermion, 0, .half_bins⟩, 0, fun _ => zeroMat⟩

/-- The claimed layout after a successful construction: `G0_iw`, `G_tau` and
`Delta_tau` have one block per `gf_struct` entry, in order and under the same
names, the `i`-th block an `n×n` matrix function with `n` the `i`-th block's
orbital count, `G0_iw` on `n_iw` Matsubara frequencies and the time functions
on `n_tau` points at temperature `beta`; and `solve` registers exactly one
insert and one remove move per `Delta_tau` block. -/
def construct_layout_spec (beta : ℝ) (gf_struct : GfStruct) (n_iw n_tau : ℕ) : Prop :=
  ∃ s : ctqmc, ctqmc.construct beta gf_struct n_iw n_tau = .ok s
    ∧ s.G0_iw.names = gf_struct.map Block.name
    ∧ s.G_tau.names = gf_struct.map Block.name
    ∧ s.Delta_tau.names = gf_struct.map Block.name
    ∧ s.G0_iw.blocks.length = gf_struct.length
    ∧ s.G_tau.blocks.length = gf_struct.length
    ∧ s.Delta_tau.blocks.length = gf_struct.length
    ∧ (∀ i, i < gf_struct.length →
        (s.G0_iw.blocks.getD i dummy_gf_imfreq).mesh.beta = beta
        ∧ (s.G0_iw.blocks.getD i dummy_gf_imfreq).mesh.statistic = .Fermion
        ∧ (s.G0_iw.blocks.getD i dummy_gf_imfreq).mesh.n_points = n_iw
        ∧ (s.G0_iw.blocks.getD i dummy_gf_imfreq).dim
            = (gf_struct.getD i dummy_block).orbitals.length
        ∧ (s.G_tau.blocks.getD i dummy_gf_imtime).mesh.beta = beta
        ∧ (s.G_tau.blocks.getD i dummy_gf_imtime).mesh.statistic = .Fermion
        ∧ (s.G_tau.blocks.getD i dummy_gf_imtime).mesh.n_points = n_tau
        ∧ (s.G_tau.blocks.getD i dummy_gf_imtime).dim
            = (gf_struct.getD i dummy_block).orbitals.length
        ∧ (s.Delta_tau.blocks.getD i dummy_gf_imtime).mesh.beta = beta
        ∧ (s.Delta_tau.blocks.getD i dummy_gf_imtime).mesh.statistic = .Fermion
        ∧ (s.Delta_tau.blocks.getD i dummy_gf_imtime).mesh.n_points = n_tau
        ∧ (s.Delta_tau.blocks.getD i dummy_gf_imtime).dim
            = (gf_struct.getD i dummy_block).orbitals.length)
    ∧ (∀ (lib : GfLib) (h_loc : OpExpr) (params : parameters)
         (qn : List OpExpr) (uqn : Bool) (b : ℕ),
        ((ctqmc.solve lib s h_loc params qn uqn).moves.countP
            (fun m => m.kind == MoveKind.insert_c_cdag && m.block == b)
          = if b < gf_struct.length then 1 else 0)
        ∧ ((ctqmc.solve lib s h_loc params qn uqn).moves.countP
            (fun m => m.kind == MoveKind.remove_c_cdag && m.block == b)
          = if b < gf_struct.length then 1 else 0))

/-! Helper lemmas about list folds and indexed counts. -/

lemma foldl_flatMap {α β γ : Type} (g : α → List β) (f : γ → β → γ)
    (l : List α) (init : γ) :
    (l.flatMap g).foldl f init = l.foldl (fun acc x => (g x).foldl f acc) init := by
  induction l generalizing init with
  | nil => rfl
  | cons x xs ih => rw [List.flatMap_cons, List.foldl_append, List.foldl_cons, ih]

lemma countP_enumFrom_idx {α : Type} (b : ℕ) (p : ℕ × α → Bool)
    (hp : ∀ i x, p (i, x) = (i == b)) :
    ∀ (l : List α) (k : ℕ),
      (List.enumFrom k l).countP p = if k ≤ b ∧ b < k + l.length then 1 else 0 := by
  intro l
  induction l with
  | nil =>
    intro k
    rw [show List.enumFrom k ([] : List α) = [] from rfl, List.countP_nil,
      List.length_nil, Nat.add_zero, if_neg (by omega)]
  | cons x xs ih =>
    intro k
    rw [show List.enumFrom k (x :: xs) = (k, x) :: List.enumFrom (k + 1) xs from rfl,
      List.countP_cons, ih (k + 1), hp]
    simp only [List.length_cons, beq_iff_eq]
    split_ifs <;> omega

lemma countP_flatMap_enumFrom {α β : Type} (b : ℕ) (f : ℕ × α → List β)
    (p : β → Bool) (hf : ∀ i x, (f (i, x)).countP p = if i = b then 1 else 0) :
    ∀ (l : List α) (k : ℕ),
      ((List.enumFrom k l).flatMap f).countP p
        = if k ≤ b ∧ b < k + l.length then 1 else 0 := by
  intro l
  induction l with
  | nil =>
    intro k
    rw [show List.enumFrom k ([] : List α) = [] from rfl, List.flatMap_nil,
      List.countP_nil, List.length_nil, Nat.add_zero, if_neg (by omega)]
  | cons x xs ih =>
    intro k
    rw [show List.enumFrom k (x :: xs) = (k, x) :: List.enumFrom (k + 1) xs from rfl,
      List.flatMap_cons, List.countP_append, hf, ih (k + 1)]
    simp only [List.length_cons]
    split_ifs <;> omega

lemma getD_map_of_lt {α β : Type} (f : α → β) (l : List α) (i : ℕ) (d : β) (d' : α)
    (h : i < l.length) : (l.map f).getD i d = f (l.getD i d') := by
  rw [List.getD_eq_getElem _ _ (by simpa using h), List.getD_eq_getElem _ _ h,
    List.getElem_map]

lemma countP_move_regs_insert (b i : ℕ) (x : String × GfImtime) :
    (move_regs_for_block (i, x)).countP
        (fun m => m.kind == MoveKind.insert_c_cdag && m.block == b)
      = if i = b then 1 else 0 := by
  by_cases h : i = b
  · subst h
    simp [move_regs_for_block, List.countP_cons]
  · simp [move_regs_for_block, List.countP_cons, h]

lemma countP_move_regs_remove (b i : ℕ) (x : String × GfImtime) :
    (move_regs_for_block (i, x)).countP
        (fun m => m.kind == MoveKind.remove_c_cdag && m.block == b)
      = if i = b then 1 else 0 := by
  by_cases h : i = b
  · subst h
    simp [move_regs_for_block, List.countP_cons]
  · simp [move_regs_for_block, List.countP_cons, h]

set_option maxHeartbeats 1000000 in
lemma solve_move_counts (lib : GfLib) (s : ctqmc) (h_loc : OpExpr)
    (params : parameters) (qn : List OpExpr) (uqn : Bool) (b n : ℕ)
    (hl1 : s.G0_iw.blocks.length = n) (hl2 : s.Delta_tau.blocks.length = n)
    (hl3 : s.Delta_tau.names.length = n) :
    ((ctqmc.solve lib s h_loc params qn uqn).moves.countP
        (fun m => m.kind == MoveKind.insert_c_cdag && m.block == b)
      = if b < n then 1 else 0)
    ∧ ((ctqmc.solve lib s h_loc params qn uqn).moves.countP
        (fun m => m.kind == MoveKind.remove_c_cdag && m.block == b)
      = if b < n then 1 else 0) := by
  have hmv : (ctqmc.solve lib s h_loc params qn uqn).moves
      = (List.enumFrom 0 (s.Delta_tau.names.zip
          (((s.G0_iw.blocks.zip s.Delta_tau.blocks).map (hyb_block lib)).map
            Prod.snd))).flatMap move_regs_for_block := rfl
  have hlen : (s.Delta_tau.names.zip
      (((s.G0_iw.blocks.zip s.Delta_tau.blocks).map (hyb_block lib)).map
        Prod.snd)).length = n := by
    simp [List.length_zip, hl1, hl2, hl3]
  constructor
  · rw [hmv, countP_flatMap_enumFrom b move_regs_for_block _
      (fun i x => countP_move_regs_insert b i x) _ 0, hlen]
    split_ifs <;> omega
  · rw [hmv, countP_flatMap_enumFrom b move_regs_for_block _
      (fun i x => countP_move_regs_remove b i x) _ 0, hlen]
    split_ifs <;> omega

lemma default_random_seed_inj {r1 r2 : ℕ} (h1 : r1 < 2 ^ 31) (h2 : r2 < 2 ^ 31)
    (h : default_random_seed r1 = default_random_seed r2) : r1 = r2 := by
  unfold default_random_seed wrap32 at h
  have hmod : (34788 + 928374 * (r1 : ℤ) + 2 ^ 31) % 2 ^ 32
      = (34788 + 928374 * (r2 : ℤ) + 2 ^ 31) % 2 ^ 32 := sub_left_inj.mp h
  have hdvd : (2 ^ 32 : ℤ) ∣ (928374 * (r2 : ℤ) - 928374 * (r1 : ℤ)) := by
    have hmeq : Int.ModEq (2 ^ 32) (34788 + 928374 * (r1 : ℤ) + 2 ^ 31)
        (34788 + 928374 * (r2 : ℤ) + 2 ^ 31) := hmod
    obtain ⟨k, hk⟩ := hmeq.dvd
    exact ⟨k, by linarith⟩
  have hdvd2 : (2 ^ 31 : ℤ) ∣ 464187 * ((r2 : ℤ) - (r1 : ℤ)) := by
    obtain ⟨k, hk⟩ := hdvd
    refine ⟨k, ?_⟩
    have h2k : (2 : ℤ) * (464187 * ((r2 : ℤ) - (r1 : ℤ))) = 2 * (2 ^ 31 * k) := by
      ring_nf
      ring_nf at hk
      linarith
    exact mul_left_cancel₀ (by norm_num) h2k
  have hcop : IsCoprime ((2 : ℤ) ^ 31) 464187 := by
    rw [Int.isCoprime_iff_gcd_eq_one]
    have hodd : Nat.Coprime 2 464187 := by
      rw [Nat.coprime_two_left, Nat.odd_iff]
    have hg : Int.gcd ((2 : ℤ) ^ 31) 464187 = Nat.gcd (2 ^ 31) 464187 := by
      simp [Int.gcd, Int.natAbs_pow]
    rw [hg]
    exact Nat.Coprime.pow_left 31 hodd
  have hfin : (2 ^ 31 : ℤ) ∣ ((r2 : ℤ) - (r1 : ℤ)) :=
    hcop.dvd_of_dvd_mul_left hdvd2
  clear hmod hdvd hdvd2 hcop h
  omega

/-! Claim theorems. -/

/-- C1: the constructor's guard is `n_tau <= 2*n_iw`, so at the boundary
`n_tau = 2·n_iw` (here `n_iw = 5`, `n_tau = 10`) construction is rejected even
though the claim — and the code's own error message, "at least twice as many
tau points" — demand success there; with `n_tau = 11` it succeeds. -/
theorem construct_rejects_exact_double_n_tau :
    exceptOk (ctqmc.construct 1 [⟨"up", [0]⟩] 5 10) = false
      ∧ exceptOk (ctqmc.construct 1 [⟨"up", [0]⟩] 5 11) = true :=
  ⟨rfl, rfl⟩

/-- C2: for every block, `solve` sets `Delta_tau` to the inverse Fourier
transform of `Δ(iω) = tail(-1)·iω + tail(0) − inverse(G0_iw)`, where the tail
coefficients are those of the inverse Weiss field, and keeps each block's
imaginary-time mesh and dimension. -/
theorem solve_delta_tau_from_weiss_tail (lib : GfLib) (s : ctqmc) (h_loc : OpExpr)
    (params : parameters) (qn : List OpExpr) (uqn : Bool) :
    (ctqmc.solve lib s h_loc params qn uqn).Delta_tau
      = ⟨s.Delta_tau.names,
         (s.G0_iw.blocks.zip s.Delta_tau.blocks).map (fun q =>
           GfImtime.mk q.2.mesh q.2.dim
             (lib.inverse_fourier (delta_iw_of_weiss lib q.1.val)))⟩ := by
  unfold ctqmc.solve hyb_block delta_iw_of_weiss
  simp only [List.map_map]
  rfl

/-- C3: `solve` augments the supplied local Hamiltonian by exactly the terms
`Re(tail(2) of G0_iw at (a1, a2)) · c_dag(bl, a1)·c(bl, a2)`, accumulated over
every block and every ordered orbital pair of that block. -/
theorem solve_folds_weiss_tail_into_h_loc (lib : GfLib) (s : ctqmc) (h_loc : OpExpr)
    (params : parameters) (qn : List OpExpr) (uqn : Bool) :
    (ctqmc.solve lib s h_loc params qn uqn).h_loc
      = (weiss_quad_terms lib s.gf_struct s.G0_iw.blocks).foldl OpExpr.add h_loc := by
  unfold ctqmc.solve weiss_quad_terms quad_term
  rw [foldl_flatMap]
  simp only [foldl_flatMap, List.foldl_map]

/-- C4: `solve` hands the Monte Carlo run an initial sign of exactly 1
(`qmc.start(1.0, ...)`) and the initial configuration is empty. -/
theorem solve_starts_empty_config_with_sign_one (lib : GfLib) (s : ctqmc)
    (h_loc : OpExpr) (params : parameters) (qn : List OpExpr) (uqn : Bool) :
    (ctqmc.solve lib s h_loc params qn uqn).start_sign = 1
      ∧ (ctqmc.solve lib s h_loc params qn uqn).initial_config.insertions = [] :=
  ⟨rfl, rfl⟩

/-- C8: `solve` overwrites the stored Weiss field: afterwards each `G0_iw`
block holds `inverse(iω·1 + tail(0) of inverse(G0_iw) − Δ(iω))`, the
tail-corrected propagator, rather than the supplied input values. -/
theorem solve_overwrites_g0_with_corrected_propagator (lib : GfLib) (s : ctqmc)
    (h_loc : OpExpr) (params : parameters) (qn : List OpExpr) (uqn : Bool) :
    (ctqmc.solve lib s h_loc params qn uqn).G0_iw
      = ⟨s.G0_iw.names,
         (s.G0_iw.blocks.zip s.Delta_tau.blocks).map (fun q =>
           GfImfreq.mk q.1.mesh q.1.dim (g0_corrected_of_weiss lib q.1.val))⟩ := by
  unfold ctqmc.solve hyb_block g0_corrected_of_weiss delta_iw_of_weiss
  simp only [List.map_map]
  rfl

/-- C9: with `use_quantum_numbers = false` the quantum-number argument is
never consulted, so `solve` produces identical results for any two
quantum-number vectors. -/
theorem solve_independent_of_unused_quantum_numbers (lib : GfLib) (s : ctqmc)
    (h_loc : OpExpr) (params : parameters) (q1 q2 : List OpExpr) :
    ctqmc.solve lib s h_loc params q1 false = ctqmc.solve lib s h_loc params q2 false :=
  rfl

/-- C6 counterexample: the parameter set recognizes the option `random_name`,
which is not among the documented runtime options, so it does not recognize
"exactly" the documented set. -/
theorem solve_parameters_undocumented_option :
    "random_name" ∈ (ctqmc.solve_parameters 0).fields.map ParamField.name
      ∧ "random_name" ∉ documented_runtime_options := by
  constructor
  · simp [ctqmc.solve_parameters, parameters_t.add_field]
  · simp [documented_runtime_options]

/-- C6 (amended): the parameter set recognizes exactly eleven options — the
eight documented ones with the stated defaults (`n_cycles` mandatory with no
default, `length_cycle` 50, `n_warmup_cycles` 5000, `random_seed` defaulting
per rank, `max_time` -1, `use_trace_estimator` false, `measure_g_tau` true,
`measure_pert_order` false) plus `random_name` (default ""), `verbosity`
(default 3 on rank 0, else 0) and `make_histograms` (default false). -/
theorem solve_parameters_recognized_fields (rank : ℕ) :
    (ctqmc.solve_parameters rank).fields.map (fun f => (f.name, f.dflt))
      = [("n_cycles", DefaultVal.no_default_int),
         ("length_cycle", .int_val 50),
         ("n_warmup_cycles", .int_val 5000),
         ("random_seed", .int_val (default_random_seed rank)),
         ("random_name", .string_val ""),
         ("max_time", .int_val (-1)),
         ("verbosity", .int_val (if rank = 0 then 3 else 0)),
         ("use_trace_estimator", .bool_val false),
         ("measure_g_tau", .bool_val true),
         ("measure_pert_order", .bool_val false),
         ("make_histograms", .bool_val false)] := rfl

/-- C5: for every block index `b` of the block structure, `solve` registers
exactly one Green's-function measurement into the driver iff `measure_g_tau`
is set, and exactly one perturbation-order measurement iff
`measure_pert_order` is set; both kinds land in the one `measures` list of the
same driver. -/
theorem solve_measure_registration (lib : GfLib) (s : ctqmc) (h_loc : OpExpr)
    (params : parameters) (qn : List OpExpr) (uqn : Bool) (b : ℕ) :
    ((ctqmc.solve lib s h_loc params qn uqn).measures.countP
        (fun m => m.kind == MeasureKind.g_tau && m.block == b)
      = if params.measure_g_tau = true ∧ b < s.G_tau.names.length then 1 else 0)
    ∧ ((ctqmc.solve lib s h_loc params qn uqn).measures.countP
        (fun m => m.kind == MeasureKind.perturbation_hist && m.block == b)
      = if params.measure_pert_order = true ∧ b < s.G_tau.names.length then 1 else 0) := by
  have hg : ∀ (l : List String),
      (l.enum.map g_measure_for_block).countP
          (fun m => m.kind == MeasureKind.g_tau && m.block == b)
        = if b < l.length then 1 else 0 := by
    intro l
    rw [List.countP_map, show l.enum = List.enumFrom 0 l from rfl,
      countP_enumFrom_idx b _ (fun i x => by simp [g_measure_for_block, Function.comp]) l 0]
    simp
  have hg0 : ∀ (l : List String),
      (l.enum.map pert_measure_for_block).countP
          (fun m => m.kind == MeasureKind.g_tau && m.block == b) = 0 := by
    intro l
    rw [List.countP_map]
    apply List.countP_eq_zero.mpr
    intro q _
    simp [pert_measure_for_block, Function.comp]
  have hp : ∀ (l : List String),
      (l.enum.map pert_measure_for_block).countP
          (fun m => m.kind == MeasureKind.perturbation_hist && m.block == b)
        = if b < l.length then 1 else 0 := by
    intro l
    rw [List.countP_map, show l.enum = List.enumFrom 0 l from rfl,
      countP_enumFrom_idx b _ (fun i x => by simp [pert_measure_for_block, Function.comp]) l 0]
    simp
  have hp0 : ∀ (l : List String),
      (l.enum.map g_measure_for_block).countP
          (fun m => m.kind == MeasureKind.perturbation_hist && m.block == b) = 0 := by
    intro l
    rw [List.countP_map]
    apply List.countP_eq_zero.mpr
    intro q _
    simp [g_measure_for_block, Function.comp]
  have hmeq : (ctqmc.solve lib s h_loc params qn uqn).measures
      = (if params.measure_g_tau then s.G_tau.names.enum.map g_measure_for_block else []) ++
        (if params.measure_pert_order then s.G_tau.names.enum.map pert_measure_for_block else []) :=
    rfl
  rw [hmeq]
  cases hA : params.measure_g_tau <;> cases hB : params.measure_pert_order <;>
    simp [List.countP_append, hg, hg0, hp, hp0]

/-- C7: a successful construction lays out `G0_iw`, `G_tau` and `Delta_tau`
with one block per `gf_struct` entry, in order, under the block names, with
the right meshes (`n_iw` frequencies, `n_tau` time points at `beta`) and
matrix dimensions, and `solve` then registers exactly one insert and one
remove move per `Delta_tau` block. -/
theorem construct_block_layout (beta : ℝ) (gf_struct : GfStruct) (n_iw n_tau : ℕ)
    (hn : 2 * n_iw < n_tau) : construct_layout_spec beta gf_struct n_iw n_tau := by
  refine ⟨⟨beta, gf_struct,
    ⟨gf_struct.map Block.name, gf_struct.map (fun bl =>
      GfImfreq.mk ⟨beta, .Fermion, n_iw⟩ bl.orbitals.length (fun _ => zeroMat))⟩,
    ⟨gf_struct.map Block.name, gf_struct.map (fun bl =>
      GfImtime.mk ⟨beta, .Fermion, n_tau, .half_bins⟩ bl.orbitals.length (fun _ => zeroMat))⟩,
    ⟨gf_struct.map Block.name, gf_struct.map (fun bl =>
      GfImtime.mk ⟨beta, .Fermion, n_tau, .half_bins⟩ bl.orbitals.length (fun _ => zeroMat))⟩⟩,
    ?_, rfl, rfl, rfl, by simp, by simp, by simp, ?_, ?_⟩
  · unfold ctqmc.construct
    rw [if_neg (by omega)]
  · intro i hi
    refine ⟨?_, ?_, ?_, ?_, ?_, ?_, ?_, ?_, ?_, ?_, ?_, ?_⟩ <;>
      simp [List.getD_eq_getElem, List.length_map, hi, List.getElem_map]
  · intro lib h_loc params qn uqn b
    exact solve_move_counts lib _ h_loc params qn uqn b gf_struct.length
      (by simp) (by simp) (by simp)

/-- C7 witness: concrete successful construction with one one-orbital block,
`beta = 1`, `n_iw = 2`, `n_tau = 5`. -/
theorem construct_block_layout_witness :
    2 * 2 < 5 ∧ construct_layout_spec 1 [⟨"up", [0]⟩] 2 5 :=
  ⟨by decide, construct_block_layout 1 [⟨"up", [0]⟩] 2 5 (by decide)⟩

/-- C10: the default random seed is the 32-bit value of
`34788 + 928374 * rank`, and two workers with distinct (representable) ranks
always receive distinct default seeds from `solve_parameters`. -/
theorem solve_parameters_seed_distinct_per_rank (r1 r2 : ℕ)
    (h1 : r1 < 2 ^ 31) (h2 : r2 < 2 ^ 31) (hne : r1 ≠ r2) :
    (ctqmc.solve_parameters r1).default_of "random_seed"
      = some (.int_val (default_random_seed r1))
    ∧ (ctqmc.solve_parameters r1).default_of "random_seed"
      ≠ (ctqmc.solve_parameters r2).default_of "random_seed" := by
  have hlook : ∀ r : ℕ, (ctqmc.solve_parameters r).default_of "random_seed"
      = some (.int_val (default_random_seed r)) := by
    intro r
    simp [ctqmc.solve_parameters, parameters_t.add_field, parameters_t.default_of,
      List.find?]
  refine ⟨hlook r1, ?_⟩
  rw [hlook r1, hlook r2]
  intro hcontra
  apply hne
  apply default_random_seed_inj h1 h2
  simpa using hcontra

/-- C10 witness: ranks 0 and 1 receive distinct default seeds. -/
theorem solve_parameters_seed_distinct_per_rank_witness :
    (0 : ℕ) < 2 ^ 31 ∧ (1 : ℕ) < 2 ^ 31 ∧ (0 : ℕ) ≠ 1
    ∧ ((ctqmc.solve_parameters 0).default_of "random_seed"
        = some (.int_val (default_random_seed 0))
      ∧ (ctqmc.solve_parameters 0).default_of "random_seed"
        ≠ (ctqmc.solve_parameters 1).default_of "random_seed") :=
  ⟨by decide, by decide, by decide,
   solve_parameters_seed_distinct_per_rank 0 1 (by decide) (by decide) (by decide)⟩

end cthyb
